import Mathlib

/-!
Verification of the Dual_Stream_LAN_Setup streaming transport core.

Shallow embedding of the transport code in
`data/scripts/sender_enhanced.py` (DualNetworkSender, the adaptive
quality adjustment inside `stream_to_receiver`) and
`data/scripts/receiver_with_audio_selection.py` (NetworkReceiver,
the receive loop inside `main`, and the audio reconfiguration logic
inside `audio_playback_thread`).

Bytes are modelled as natural numbers below 256; byte strings as
`List Nat`.  The socket byte stream seen by the receiver is modelled
as the full list of bytes the peer will ever send: `recv` returning
the empty string (connection closed) corresponds to running past the
end of that list.  External collaborators (JPEG decode, display,
audio device I/O) are outside the model boundary: dispatching a
message to them is recorded as an event.
-/

/-- The four magic bytes b"SYNC" that `struct.pack` writes first. -/
def magicBytes : List Nat := [83, 89, 78, 67]

/-- Little-endian 4-byte encoding of a 32-bit unsigned length, as produced by
the `I` field of `struct.pack` with byte order `<`. -/
def toLE32 (n : Nat) : List Nat :=
  [n % 256, n / 256 % 256, n / 65536 % 256, n / 16777216 % 256]

/-- Little-endian decoding of the first four bytes, as performed by
`struct.unpack` with an `I` field. -/
def fromLE32 (l : List Nat) : Nat :=
  match l with
  | a :: b :: c :: d :: _ => a + 256 * b + 65536 * c + 16777216 * d
  | _ => 0

theorem toLE32_length (n : Nat) : (toLE32 n).length = 4 := rfl

theorem fromLE32_toLE32 (n : Nat) (h : n < 4294967296) :
    fromLE32 (toLE32 n) = n := by
  simp only [toLE32, fromLE32]
  omega

/-- The 9-byte wire header `MAGIC(4) || kind(1) || length(4, LE)`, as laid out
by `struct.pack` with format `<4scI` in the sender. -/
def msgHeader (kind size : Nat) : List Nat :=
  magicBytes ++ [kind] ++ toLE32 size

theorem msgHeader_length (kind size : Nat) : (msgHeader kind size).length = 9 := rfl

/-- A complete framed message: header followed by the payload, as built by
`header = struct.pack(..., len(data)); packet = header + data`. -/
def encodeMsg (kind : Nat) (payload : List Nat) : List Nat :=
  msgHeader kind payload.length ++ payload

/-- The sync field of a 9-byte header, as produced by `struct.unpack` format
`4s` in the receiver. -/
def headerMagic (h : List Nat) : List Nat := h.take 4

/-- The kind byte of a 9-byte header (`c` field of `struct.unpack`). -/
def headerKind (h : List Nat) : Nat := (h.drop 4).headI

/-- The length field of a 9-byte header (`I` field of `struct.unpack`). -/
def headerSize (h : List Nat) : Nat := fromLE32 (h.drop 5)

theorem msgHeader_magic (kind size : Nat) :
    headerMagic (msgHeader kind size) = magicBytes := rfl

theorem msgHeader_kind (kind size : Nat) :
    headerKind (msgHeader kind size) = kind := rfl

theorem msgHeader_size (kind size : Nat) (h : size < 4294967296) :
    headerSize (msgHeader kind size) = size :=
  fromLE32_toLE32 size h

/-! ## Sender side: DualNetworkSender -/

/-- State of `DualNetworkSender`: the two bounded lanes
(`video_queue`, maxsize 5; `audio_queue`, maxsize 30), the sequence of
packets already handed to `sock.sendall`, and the `stats` counters. -/
structure SenderState where
  videoQueue : List (List Nat)
  audioQueue : List (List Nat)
  written : List (List Nat)
  videoSent : Nat
  audioSent : Nat
  videoDropped : Nat
  audioDropped : Nat
deriving DecidableEq

/-- The empty sender state built by `DualNetworkSender.__init__`. -/
def initSender : SenderState :=
  { videoQueue := [], audioQueue := [], written := [],
    videoSent := 0, audioSent := 0, videoDropped := 0, audioDropped := 0 }

/-- One iteration of `DualNetworkSender._sender_thread`: try
`audio_queue.get_nowait()` first; on success write the packet and `continue`
without looking at video; only when the audio lane is empty dequeue one
video packet. -/
def senderStep (s : SenderState) : SenderState :=
  match s.audioQueue with
  | a :: restA =>
      { s with audioQueue := restA, written := s.written ++ [a],
               audioSent := s.audioSent + 1 }
  | [] =>
      match s.videoQueue with
      | v :: restV =>
          { s with videoQueue := restV, written := s.written ++ [v],
                   videoSent := s.videoSent + 1 }
      | [] => s

/-- `DualNetworkSender.send_video`: `put_nowait` on the video lane; when the
lane is full the new frame is dropped and `video_dropped` incremented. -/
def sendVideo (s : SenderState) (d : List Nat) : SenderState :=
  if s.videoQueue.length < 5 then
    { s with videoQueue := s.videoQueue ++ [d] }
  else
    { s with videoDropped := s.videoDropped + 1 }

/-- `DualNetworkSender.send_audio`: `put_nowait` on the audio lane; when the
lane is full the oldest queued item is removed with `get_nowait`, the new item
is enqueued, and `audio_dropped` incremented. -/
def sendAudio (s : SenderState) (d : List Nat) : SenderState :=
  if s.audioQueue.length < 30 then
    { s with audioQueue := s.audioQueue ++ [d] }
  else
    { s with audioQueue := s.audioQueue.tail ++ [d],
             audioDropped := s.audioDropped + 1 }

/-- An operation on the sender: a producer enqueue on either lane, or one
iteration of the drain thread. -/
inductive SenderOp where
  | video (d : List Nat)
  | audio (d : List Nat)
  | drain
deriving DecidableEq

/-- Apply one operation to the sender state. -/
def applySenderOp (s : SenderState) : SenderOp → SenderState
  | SenderOp.video d => sendVideo s d
  | SenderOp.audio d => sendAudio s d
  | SenderOp.drain => senderStep s

/-- Run a sequence of enqueue/drain operations from the freshly constructed
sender. -/
def runSenderOps (ops : List SenderOp) : SenderState :=
  ops.foldl applySenderOp initSender

/-! ## Sender side: adaptive quality adjustment in stream_to_receiver -/

/-- One per-second quality evaluation in `stream_to_receiver`:
`if stats[video_dropped] > 5 and quality > min_quality: quality -= 5
elif stats[video_dropped] == 0 and quality < max_quality: quality += 2`
with `min_quality = 60` and `max_quality = 95`.  The `dropped` argument is
the value of the cumulative `video_dropped` counter read at that second. -/
def adjustQuality (q : Int) (dropped : Nat) : Int :=
  if 5 < dropped ∧ 60 < q then q - 5
  else if dropped = 0 ∧ q < 95 then q + 2
  else q

/-- Run the per-second quality evaluations on the successive readings of the
`video_dropped` counter, starting from the initial `quality = 85`. -/
def runQuality (readings : List Nat) : Int :=
  readings.foldl adjustQuality 85

/-! ## Receiver side: NetworkReceiver and the receive loop of main -/

/-- The receiver rejects any length field above 10 MiB
(`if data_size > 10 * 1024 * 1024`). -/
def maxPacketSize : Nat := 10485760

/-- `NetworkReceiver.receive_exact(n)`: return exactly `n` bytes from the
front of the stream, or `None` when the connection closes before `n` bytes
are available.  `buf` is the complete byte stream the peer will ever send. -/
def receiveExact (buf : List Nat) (n : Nat) : Option (List Nat × List Nat) :=
  if n ≤ buf.length then some (buf.take n, buf.drop n) else none

theorem receiveExact_append (l rest : List Nat) :
    receiveExact (l ++ rest) l.length = some (l, rest) := by
  simp [receiveExact]

theorem receiveExact_append_of_length (l rest : List Nat) (n : Nat)
    (h : l.length = n) : receiveExact (l ++ rest) n = some (l, rest) :=
  h ▸ receiveExact_append l rest

/-- A message dispatched by the receive loop to one of its per-kind
consumers: a video frame handed to the display path, or an audio chunk
handed to the playback path. -/
inductive RxEvent where
  | video (payload : List Nat)
  | audio (payload : List Nat)
deriving DecidableEq

/-- State of one receiver session: the unread byte stream, the `stats`
counters, the `consecutive_errors` counter, the single-slot
`audio_info_queue` content, the messages dispatched so far, and whether the
receive loop has exited (`break`). -/
structure RxState where
  input : List Nat
  videoReceived : Nat
  audioReceived : Nat
  syncErrors : Nat
  packetsDropped : Nat
  consecutiveErrors : Nat
  audioInfoSlot : Option (Nat × Nat × Nat)
  dispatched : List RxEvent
  closed : Bool
deriving DecidableEq

/-- Fresh session state over a given incoming byte stream. -/
def mkRx (input : List Nat) : RxState :=
  { input := input, videoReceived := 0, audioReceived := 0, syncErrors := 0,
    packetsDropped := 0, consecutiveErrors := 0, audioInfoSlot := none,
    dispatched := [], closed := false }

/-- One iteration of the receive loop in the receiver `main`:
read a 9-byte header (EOF closes the session); `struct.unpack` the header
(which never fails on exactly 9 bytes); on a sync-marker mismatch increment
`sync_errors` and `continue` (note: without touching `consecutive_errors`
and without consuming any payload); otherwise reset `consecutive_errors`,
check the length field against the 10 MiB cap (violation increments
`packets_dropped` and `continue`s without consuming the payload); receive
the payload (`if not data: break`, which also fires on a zero-length
payload); finally dispatch on the kind byte: 86 = V to the display path,
65 = A to the playback path, 73 = I parsed as three little-endian uint32
into the audio-info slot when the payload is exactly 12 bytes (any other
payload length is swallowed by the bare except), and any other kind byte
falls through silently. -/
def rxStep (s : RxState) : RxState :=
  if s.closed then s else
  match receiveExact s.input 9 with
  | none => { s with closed := true }
  | some (header, rest) =>
    if headerMagic header ≠ magicBytes then
      { s with input := rest, syncErrors := s.syncErrors + 1 }
    else
      let kind := headerKind header
      let size := headerSize header
      if maxPacketSize < size then
        { s with input := rest, consecutiveErrors := 0,
                 packetsDropped := s.packetsDropped + 1 }
      else
        match receiveExact rest size with
        | none => { s with input := [], consecutiveErrors := 0, closed := true }
        | some (payload, rest2) =>
          if payload = [] then
            { s with input := rest2, consecutiveErrors := 0, closed := true }
          else if kind = 86 then
            { s with input := rest2, consecutiveErrors := 0,
                     videoReceived := s.videoReceived + 1,
                     dispatched := s.dispatched ++ [RxEvent.video payload] }
          else if kind = 65 then
            { s with input := rest2, consecutiveErrors := 0,
                     audioReceived := s.audioReceived + 1,
                     dispatched := s.dispatched ++ [RxEvent.audio payload] }
          else if kind = 73 then
            if payload.length = 12 then
              { s with input := rest2, consecutiveErrors := 0,
                       audioInfoSlot := some (fromLE32 (payload.take 4),
                         fromLE32 ((payload.drop 4).take 4),
                         fromLE32 (payload.drop 8)) }
            else
              { s with input := rest2, consecutiveErrors := 0 }
          else
            { s with input := rest2, consecutiveErrors := 0 }

/-- Iterate the receive loop a given number of times. -/
def rxRun : Nat → RxState → RxState
  | 0, s => s
  | n + 1, s => rxRun n (rxStep s)

/-! ## Path lemmas for the receive loop -/

theorem rxStep_eof (s : RxState) (hc : s.closed = false)
    (h : s.input.length < 9) : rxStep s = { s with closed := true } := by
  have : receiveExact s.input 9 = none := by
    simp [receiveExact]; omega
  simp [rxStep, hc, this]

theorem rxStep_badMagic (s : RxState) (h9 rest : List Nat)
    (hc : s.closed = false) (hi : s.input = h9 ++ rest)
    (hlen : h9.length = 9) (hm : headerMagic h9 ≠ magicBytes) :
    rxStep s = { s with input := rest, syncErrors := s.syncErrors + 1 } := by
  simp only [rxStep, hc, hi, receiveExact_append_of_length h9 rest 9 hlen]
  simp [hm]

theorem rxStep_oversize (s : RxState) (kind size : Nat) (rest : List Nat)
    (hc : s.closed = false) (hi : s.input = msgHeader kind size ++ rest)
    (hcap : maxPacketSize < size) (h32 : size < 4294967296) :
    rxStep s = { s with input := rest, consecutiveErrors := 0,
                        packetsDropped := s.packetsDropped + 1 } := by
  simp only [rxStep, hc, hi,
    receiveExact_append_of_length _ rest 9 (msgHeader_length kind size)]
  simp [msgHeader_magic, msgHeader_size kind size h32, hcap]

theorem rxStep_emptyPayload (s : RxState) (kind : Nat) (rest : List Nat)
    (hc : s.closed = false) (hi : s.input = msgHeader kind 0 ++ rest) :
    rxStep s = { s with input := rest, consecutiveErrors := 0,
                        closed := true } := by
  simp only [rxStep, hc, hi,
    receiveExact_append_of_length _ rest 9 (msgHeader_length kind 0)]
  have h0 : headerSize (msgHeader kind 0) = 0 := msgHeader_size kind 0 (by omega)
  simp [msgHeader_magic, h0, receiveExact, maxPacketSize]

theorem rxStep_dispatch (s : RxState) (kind : Nat) (payload rest : List Nat)
    (hc : s.closed = false) (hi : s.input = encodeMsg kind payload ++ rest)
    (hcap : payload.length ≤ maxPacketSize) (hne : payload ≠ []) :
    rxStep s =
      if kind = 86 then
        { s with input := rest, consecutiveErrors := 0,
                 videoReceived := s.videoReceived + 1,
                 dispatched := s.dispatched ++ [RxEvent.video payload] }
      else if kind = 65 then
        { s with input := rest, consecutiveErrors := 0,
                 audioReceived := s.audioReceived + 1,
                 dispatched := s.dispatched ++ [RxEvent.audio payload] }
      else if kind = 73 then
        if payload.length = 12 then
          { s with input := rest, consecutiveErrors := 0,
                   audioInfoSlot := some (fromLE32 (payload.take 4),
                     fromLE32 ((payload.drop 4).take 4),
                     fromLE32 (payload.drop 8)) }
        else
          { s with input := rest, consecutiveErrors := 0 }
      else
        { s with input := rest, consecutiveErrors := 0 } := by
  have h32 : payload.length < 4294967296 := by
    have : maxPacketSize = 10485760 := rfl
    omega
  have hassoc : s.input = msgHeader kind payload.length ++ (payload ++ rest) := by
    simp [hi, encodeMsg]
  simp only [rxStep, hc, hassoc,
    receiveExact_append_of_length _ _ 9 (msgHeader_length kind payload.length)]
  have hsz : headerSize (msgHeader kind payload.length) = payload.length :=
    msgHeader_size kind payload.length h32
  have hncap : ¬ maxPacketSize < payload.length := by omega
  simp [msgHeader_magic, msgHeader_kind, hsz, hncap, receiveExact_append, hne]

/-! ## Receiver side: audio reconfiguration in audio_playback_thread -/

/-- The fixed candidate list `configs_to_try` built after `RATE` and
`CHANNELS` have been set to the newly announced values. -/
def configsToTry (rate channels : Nat) : List (Nat × Nat) :=
  [(rate, channels), (44100, channels), (48000, channels),
   (rate, 2), (44100, 2), (48000, 2)]

/-- The `for test_rate, test_channels in configs_to_try` loop: `p.open` each
candidate in order, `break` on the first success, fall through on exception. -/
def tryConfigs (candidates : List (Nat × Nat))
    (accepts : Nat × Nat → Bool) : Option (Nat × Nat) :=
  match candidates with
  | [] => none
  | c :: rest => if accepts c then some c else tryConfigs rest accepts

theorem tryConfigs_eq_find (candidates : List (Nat × Nat))
    (accepts : Nat × Nat → Bool) :
    tryConfigs candidates accepts = candidates.find? accepts := by
  induction candidates with
  | nil => rfl
  | cons c rest ih => by_cases h : accepts c <;> simp [tryConfigs, ih, h]

/-- State of the playback thread around one audio-info update: the active
`RATE` and `CHANNELS`, the `stream_configured` flag, whether the pyaudio
stream object is currently open, and whether the thread is still running
(it exits via `return` on a failed initial configuration). -/
structure AudioPlayback where
  rate : Nat
  channels : Nat
  streamConfigured : Bool
  streamOpen : Bool
  threadAlive : Bool
deriving DecidableEq

/-- Handling of one announcement popped from `audio_info_queue` in
`audio_playback_thread`: when the announced rate or channel count differs
from the active one (or no stream was ever configured), the open stream is
closed, `RATE`/`CHANNELS` take the announced values, and the candidates are
tried in order; on success the accepted pair becomes active and the stream
reopens; when every candidate fails the thread `return`s only if
`stream_configured` is (still) false - after a previously successful
configuration the flag was never cleared, so the thread stays alive with
the stream closed. -/
def handleAudioInfo (s : AudioPlayback) (newRate newChannels : Nat)
    (accepts : Nat × Nat → Bool) : AudioPlayback :=
  if newRate ≠ s.rate ∨ newChannels ≠ s.channels ∨ s.streamConfigured = false then
    match tryConfigs (configsToTry newRate newChannels) accepts with
    | some c =>
        { rate := c.1, channels := c.2, streamConfigured := true,
          streamOpen := true, threadAlive := s.threadAlive }
    | none =>
        if s.streamConfigured then
          { rate := newRate, channels := newChannels, streamConfigured := true,
            streamOpen := false, threadAlive := s.threadAlive }
        else
          { rate := newRate, channels := newChannels, streamConfigured := false,
            streamOpen := false, threadAlive := false }
  else s

/-! ## Claim C1: strict audio priority in the drain loop -/

/-- Claim C1: whenever both lanes are non-empty at the moment the drain
routine checks, the next packet written to the socket is the head of the
audio lane (the video lane is untouched), and any drain step that dequeues
from the video lane can only happen when the audio lane is empty. -/
theorem audio_priority_drain (s : SenderState)
    (ha : s.audioQueue ≠ []) (hv : s.videoQueue ≠ []) :
    (senderStep s).written = s.written ++ [s.audioQueue.headI]
    ∧ (senderStep s).audioQueue = s.audioQueue.tail
    ∧ (senderStep s).videoQueue = s.videoQueue
    ∧ ∀ t : SenderState, (senderStep t).videoQueue ≠ t.videoQueue →
        t.audioQueue = [] := by
  refine ⟨?_, ?_, ?_, ?_⟩
  · cases h : s.audioQueue with
    | nil => exact absurd h ha
    | cons a restA => simp [senderStep, h]
  · cases h : s.audioQueue with
    | nil => exact absurd h ha
    | cons a restA => simp [senderStep, h]
  · cases h : s.audioQueue with
    | nil => exact absurd h ha
    | cons a restA => simp [senderStep, h]
  · intro t hne
    cases h : t.audioQueue with
    | nil => rfl
    | cons a restA => exact absurd (by simp [senderStep, h]) hne

/-- Witness for C1 at a concrete two-lane state. -/
theorem audio_priority_drain_witness :
    (⟨[[1]], [[2], [3]], [], 0, 0, 0, 0⟩ : SenderState).audioQueue ≠ []
    ∧ (⟨[[1]], [[2], [3]], [], 0, 0, 0, 0⟩ : SenderState).videoQueue ≠ []
    ∧ (senderStep ⟨[[1]], [[2], [3]], [], 0, 0, 0, 0⟩).written = [[2]]
    ∧ (senderStep ⟨[[1]], [[2], [3]], [], 0, 0, 0, 0⟩).videoQueue = [[1]] := by
  have h := audio_priority_drain ⟨[[1]], [[2], [3]], [], 0, 0, 0, 0⟩
    (by decide) (by decide)
  exact ⟨by decide, by decide, by simpa using h.1, by simpa using h.2.2.1⟩

/-! ## Claim C2: byte-exact serialization round trip -/

/-- Claim C2: for every recognized kind byte and every payload within the
10 MiB cap, the first 9 bytes of the encoded message parse back (with the
receiver field extractors of `struct.unpack` format `<4scI`) to a valid
sync marker, the same kind, and the exact payload length, and the bytes
after the header are exactly the payload. -/
theorem encode_decode_roundtrip (kind : Nat) (payload : List Nat)
    (hk : kind ∈ [86, 65, 73]) (hcap : payload.length ≤ maxPacketSize) :
    headerMagic ((encodeMsg kind payload).take 9) = magicBytes
    ∧ headerKind ((encodeMsg kind payload).take 9) = kind
    ∧ headerSize ((encodeMsg kind payload).take 9) = payload.length
    ∧ (encodeMsg kind payload).drop 9 = payload := by
  have h32 : payload.length < 4294967296 := by
    have : maxPacketSize = 10485760 := rfl
    omega
  have htake : (encodeMsg kind payload).take 9 = msgHeader kind payload.length := by
    have := msgHeader_length kind payload.length
    simp [encodeMsg, List.take_append_eq_append_take, this]
  have hdrop : (encodeMsg kind payload).drop 9 = payload := by
    have := msgHeader_length kind payload.length
    simp [encodeMsg, List.drop_append_eq_append_drop, this]
  exact ⟨by rw [htake]; exact msgHeader_magic kind payload.length,
         by rw [htake]; exact msgHeader_kind kind payload.length,
         by rw [htake]; exact msgHeader_size kind payload.length h32,
         hdrop⟩

/-- Witness for C2: the video kind with a concrete 3-byte payload. -/
theorem encode_decode_roundtrip_witness :
    (86 ∈ [86, 65, 73] ∧ ([10, 20, 30] : List Nat).length ≤ maxPacketSize)
    ∧ (headerMagic ((encodeMsg 86 [10, 20, 30]).take 9) = magicBytes
       ∧ headerKind ((encodeMsg 86 [10, 20, 30]).take 9) = 86
       ∧ headerSize ((encodeMsg 86 [10, 20, 30]).take 9) = 3
       ∧ (encodeMsg 86 [10, 20, 30]).drop 9 = [10, 20, 30]) :=
  ⟨⟨by decide, by decide⟩,
   encode_decode_roundtrip 86 [10, 20, 30] (by decide) (by decide)⟩

/-! ## Claim C8: lane capacity and eviction discipline -/

theorem senderOps_bounds_aux (ops : List SenderOp) :
    ∀ s : SenderState, s.videoQueue.length ≤ 5 → s.audioQueue.length ≤ 30 →
      (ops.foldl applySenderOp s).videoQueue.length ≤ 5
      ∧ (ops.foldl applySenderOp s).audioQueue.length ≤ 30 := by
  induction ops with
  | nil => exact fun s hv ha => ⟨hv, ha⟩
  | cons op rest ih =>
    intro s hv ha
    refine ih (applySenderOp s op) ?_ ?_
    · cases op with
      | video d =>
        simp only [applySenderOp, sendVideo]
        split <;> simp <;> omega
      | audio d =>
        simp only [applySenderOp, sendAudio]
        split <;> simp [hv]
      | drain =>
        simp only [applySenderOp, senderStep]
        cases h : s.audioQueue with
        | cons a restA => simpa using hv
        | nil =>
          cases h2 : s.videoQueue with
          | nil => simpa using hv
          | cons v restV =>
            have : s.videoQueue.length = restV.length + 1 := by simp [h2]
            simp
            omega
    · cases op with
      | video d =>
        simp only [applySenderOp, sendVideo]
        split <;> simp [ha]
      | audio d =>
        simp only [applySenderOp, sendAudio]
        split
        · simp; omega
        · have : s.audioQueue.tail.length = s.audioQueue.length - 1 :=
            List.length_tail s.audioQueue
          simp
          omega
      | drain =>
        simp only [applySenderOp, senderStep]
        cases h : s.audioQueue with
        | cons a restA =>
          have : s.audioQueue.length = restA.length + 1 := by simp [h]
          simp
          omega
        | nil =>
          cases h2 : s.videoQueue with
          | nil => simpa using ha
          | cons v restV => simpa [h] using ha

/-- Claim C8: under every interleaving of enqueues and drain steps the video
lane holds at most 5 items and the audio lane at most 30; an enqueue into a
full audio lane evicts the oldest item, keeps the new item as the most
recent one, and increments the dropped counter; an enqueue into a full
video lane leaves the lane unchanged (the new frame is dropped) and
increments the dropped counter. -/
theorem lane_capacity_and_eviction :
    (∀ ops : List SenderOp,
      (runSenderOps ops).videoQueue.length ≤ 5
      ∧ (runSenderOps ops).audioQueue.length ≤ 30)
    ∧ (∀ (s : SenderState) (d : List Nat), s.audioQueue.length = 30 →
        (sendAudio s d).audioQueue = s.audioQueue.tail ++ [d]
        ∧ (sendAudio s d).audioQueue.getLast? = some d
        ∧ (sendAudio s d).audioDropped = s.audioDropped + 1)
    ∧ (∀ (s : SenderState) (d : List Nat), s.videoQueue.length = 5 →
        (sendVideo s d).videoQueue = s.videoQueue
        ∧ (sendVideo s d).videoDropped = s.videoDropped + 1) := by
  refine ⟨fun ops => senderOps_bounds_aux ops initSender (by decide) (by decide),
    fun s d hfull => ?_, fun s d hfull => ?_⟩
  · have hnl : ¬ s.audioQueue.length < 30 := by omega
    refine ⟨by simp [sendAudio, hnl], ?_, by simp [sendAudio, hnl]⟩
    simp [sendAudio, hnl, List.getLast?_concat]
  · have hnl : ¬ s.videoQueue.length < 5 := by omega
    exact ⟨by simp [sendVideo, hnl], by simp [sendVideo, hnl]⟩

/-- Witness for C8: a concrete op sequence, a concrete full audio lane, and
a concrete full video lane. -/
theorem lane_capacity_and_eviction_witness :
    ((runSenderOps [SenderOp.audio [1], SenderOp.video [2],
        SenderOp.drain]).videoQueue.length ≤ 5)
    ∧ ((⟨[], List.replicate 30 [0], [], 0, 0, 0, 0⟩ : SenderState).audioQueue.length = 30
       ∧ (sendAudio ⟨[], List.replicate 30 [0], [], 0, 0, 0, 0⟩ [7]).audioQueue.getLast?
           = some [7])
    ∧ ((⟨List.replicate 5 [0], [], [], 0, 0, 0, 0⟩ : SenderState).videoQueue.length = 5
       ∧ (sendVideo ⟨List.replicate 5 [0], [], [], 0, 0, 0, 0⟩ [9]).videoDropped = 1) := by
  refine ⟨(lane_capacity_and_eviction.1 _).1, ⟨by decide, ?_⟩, ⟨by decide, ?_⟩⟩
  · exact (lane_capacity_and_eviction.2.1
      ⟨[], List.replicate 30 [0], [], 0, 0, 0, 0⟩ [7] (by decide)).2.1
  · have h := (lane_capacity_and_eviction.2.2
      ⟨List.replicate 5 [0], [], [], 0, 0, 0, 0⟩ [9] (by decide)).2
    simpa using h

/-! ## Claim C4: quality bounds -/

theorem quality_bounds_aux (l : List Nat) :
    ∀ (q : Int) (r : Nat), List.Chain (· ≤ ·) r l →
      56 ≤ q → q ≤ 95 → (r = 0 → q % 2 = 1 ∧ 85 ≤ q) →
      56 ≤ l.foldl adjustQuality q ∧ l.foldl adjustQuality q ≤ 95 := by
  induction l with
  | nil => exact fun q r _ h1 h2 _ => ⟨h1, h2⟩
  | cons d rest ih =>
    intro q r hchain h1 h2 hodd
    rw [List.chain_cons] at hchain
    obtain ⟨hrd, hcrest⟩ := hchain
    simp only [List.foldl_cons]
    by_cases hd : d = 0
    · subst hd
      have hr0 : r = 0 := Nat.le_zero.mp hrd
      obtain ⟨hq2, hq85⟩ := hodd hr0
      refine ih (adjustQuality q 0) 0 hcrest ?_ ?_ ?_ <;>
        simp only [adjustQuality] <;> split_ifs <;> omega
    · refine ih (adjustQuality q d) d hcrest ?_ ?_ ?_ <;>
        simp only [adjustQuality] <;> split_ifs <;> omega

/-- Counterexample to claim C4: the readings of the cumulative
`video_dropped` counter 0, 0, 0 then 6 for seven consecutive seconds form a
realizable (non-decreasing) reading sequence, and drive the quality from 85
up to 91 and then down to 56, strictly below the claimed floor of 60: the
code guards the decrement with `quality > min_quality` but does not clamp
the result. -/
theorem quality_bounds_counterexample :
    runQuality [0, 0, 0, 6, 6, 6, 6, 6, 6, 6] = 56
    ∧ ¬ (60 : Int) ≤ runQuality [0, 0, 0, 6, 6, 6, 6, 6, 6, 6] := by
  constructor <;> decide

/-- Claim C4 amended: starting from quality 85, for every sequence of
per-second readings of the cumulative `video_dropped` counter (which is
never reset, hence non-decreasing), the quality stays within 56 and 95:
the increase branch is guarded by `quality < 95` and, with readings of a
monotone counter, can only fire on an odd quality, so 95 is never
exceeded; the decrease branch is guarded by `quality > 60` and can
undershoot the floor of 60 by up to 4. -/
theorem quality_bounds (readings : List Nat)
    (hmono : List.Chain (· ≤ ·) 0 readings) :
    56 ≤ runQuality readings ∧ runQuality readings ≤ 95 :=
  quality_bounds_aux readings 85 0 hmono (by omega) (by omega)
    (fun _ => ⟨by decide, by omega⟩)

/-- Witness for C4 at a concrete monotone reading sequence. -/
theorem quality_bounds_witness :
    List.Chain (· ≤ ·) 0 [0, 3, 7]
    ∧ 56 ≤ runQuality [0, 3, 7] ∧ runQuality [0, 3, 7] ≤ 95 :=
  ⟨by simp [List.chain_cons], quality_bounds [0, 3, 7] (by simp [List.chain_cons])⟩

/-! ## Claim C5: per-window quality adjustment -/

/-- Claim C5 evaluated on the code: the adjustment reads the cumulative
`video_dropped` counter, which is never reset per window.  In the scenario
of the claim - a window with 6 drops followed by a window with 0 further
drops - the counter reads 6 in both windows, so the quality goes 85 to 80
to 75; the claimed per-window behavior would give 85 to 80 to 82. -/
theorem quality_cumulative_not_per_window :
    runQuality [6] = 80
    ∧ runQuality [6, 6] = 75
    ∧ runQuality [6, 6] ≠ 82 := by
  refine ⟨by decide, by decide, by decide⟩

/-! ## Claim C3: oversize handling -/

/-- Counterexample to claim C3: a header announcing a payload one byte over
the 10 MiB cap, followed by three stream bytes.  The receive loop increments
`packets_dropped` and `continue`s WITHOUT calling `receive_exact(length)`:
the three bytes that belong to the oversize payload are left in the stream
and will be read as the start of the next header.  A receiver that consumed
the announced payload (as the claim states) could not leave those three
bytes unread while staying open. -/
theorem oversize_consumed_counterexample :
    (rxStep (mkRx (msgHeader 86 10485761 ++ [1, 2, 3]))).closed = false
    ∧ (rxStep (mkRx (msgHeader 86 10485761 ++ [1, 2, 3]))).input = [1, 2, 3]
    ∧ (rxStep (mkRx (msgHeader 86 10485761 ++ [1, 2, 3]))).packetsDropped = 1 := by
  refine ⟨by decide, by decide, by decide⟩

/-- Claim C3 amended: on a decoded length above the 10 MiB cap the receiver
increments its dropped-packet counter, dispatches nothing, and the session
remains open, but the payload is NOT consumed: only the 9 header bytes are
removed from the stream, so the next header read starts at the first byte
of the oversize payload (the stream desynchronizes). -/
theorem oversize_drop_without_consume (s : RxState) (kind size : Nat)
    (rest : List Nat) (hc : s.closed = false)
    (hi : s.input = msgHeader kind size ++ rest)
    (hcap : maxPacketSize < size) (h32 : size < 4294967296) :
    (rxStep s).packetsDropped = s.packetsDropped + 1
    ∧ (rxStep s).dispatched = s.dispatched
    ∧ (rxStep s).closed = false
    ∧ (rxStep s).input = rest := by
  rw [rxStep_oversize s kind size rest hc hi hcap h32]
  exact ⟨rfl, rfl, hc ▸ rfl, rfl⟩

/-- Witness for C3 (amended) at a concrete oversize message. -/
theorem oversize_drop_without_consume_witness :
    ((mkRx (msgHeader 86 10485761 ++ [1, 2, 3])).closed = false
     ∧ maxPacketSize < 10485761)
    ∧ ((rxStep (mkRx (msgHeader 86 10485761 ++ [1, 2, 3]))).packetsDropped = 0 + 1
       ∧ (rxStep (mkRx (msgHeader 86 10485761 ++ [1, 2, 3]))).input = [1, 2, 3]) := by
  have h := oversize_drop_without_consume (mkRx (msgHeader 86 10485761 ++ [1, 2, 3]))
    86 10485761 [1, 2, 3] rfl rfl (by decide) (by decide)
  exact ⟨⟨rfl, by decide⟩, ⟨h.1, h.2.2.2⟩⟩

/-! ## Claim C6: consecutive framing errors -/

/-- A 9-byte header whose magic is b"SYNX" instead of b"SYNC", followed by a
plausible kind (86 = V) and length field (0). -/
def badMagicHeader : List Nat := [83, 89, 78, 88] ++ [86] ++ toLE32 0

theorem rxRun_badMagic (n : Nat) :
    ∀ (s : RxState) (rest : List Nat), s.closed = false →
      s.input = (List.replicate n badMagicHeader).flatten ++ rest →
      rxRun n s = { s with input := rest, syncErrors := s.syncErrors + n } := by
  induction n with
  | zero =>
    intro s rest hc hi
    simp only [List.replicate, List.flatten_nil, List.nil_append] at hi
    cases s
    simp_all [rxRun]
  | succ n ih =>
    intro s rest hc hi
    have hstep : rxStep s =
        { s with input := (List.replicate n badMagicHeader).flatten ++ rest,
                 syncErrors := s.syncErrors + 1 } := by
      refine rxStep_badMagic s badMagicHeader _ hc ?_ rfl (by decide)
      rw [hi, List.replicate_succ]
      simp [List.flatten_cons, List.append_assoc]
    show rxRun n (rxStep s) = _
    rw [hstep]
    have h2 := ih ({ s with input := (List.replicate n badMagicHeader).flatten ++ rest, syncErrors := s.syncErrors + 1 }) rest hc rfl
    rw [h2, Nat.add_assoc, Nat.add_comm 1 n]

set_option maxRecDepth 40000

/-- Counterexample to claim C6: ten consecutive headers with magic b"SYNX"
do NOT close the session - on a sync-marker mismatch the code increments
`sync_errors` and `continue`s without ever touching `consecutive_errors`
(the `struct.error` branch that does increment it is unreachable for a
9-byte header).  After the ten bad headers a valid video message is still
processed normally. -/
theorem framing_threshold_counterexample :
    (rxRun 11 (mkRx ((List.replicate 10 badMagicHeader).flatten
        ++ encodeMsg 86 [5]))).closed = false
    ∧ (rxRun 11 (mkRx ((List.replicate 10 badMagicHeader).flatten
        ++ encodeMsg 86 [5]))).syncErrors = 10
    ∧ (rxRun 11 (mkRx ((List.replicate 10 badMagicHeader).flatten
        ++ encodeMsg 86 [5]))).videoReceived = 1 := by
  refine ⟨by decide, by decide, by decide⟩

/-- Claim C6 amended: a framing error (wrong magic) increments the
sync-error counter, dispatches nothing, and never closes the session; the
`consecutive_errors` counter is NOT incremented by a bad magic (only
receive-loop exceptions increment it), so no number of consecutive framing
errors closes the session; a header whose magic validates resets the
consecutive count to zero. -/
theorem framing_errors_never_close :
    (∀ (s : RxState) (h9 rest : List Nat), s.closed = false →
      s.input = h9 ++ rest → h9.length = 9 → headerMagic h9 ≠ magicBytes →
      rxStep s = { s with input := rest, syncErrors := s.syncErrors + 1 })
    ∧ (∀ (n : Nat) (s : RxState) (rest : List Nat), s.closed = false →
        s.input = (List.replicate n badMagicHeader).flatten ++ rest →
        (rxRun n s).closed = false
        ∧ (rxRun n s).syncErrors = s.syncErrors + n
        ∧ (rxRun n s).consecutiveErrors = s.consecutiveErrors)
    ∧ (∀ (s : RxState) (kind : Nat) (payload rest : List Nat),
        s.closed = false → s.input = encodeMsg kind payload ++ rest →
        payload.length ≤ maxPacketSize → payload ≠ [] →
        (rxStep s).consecutiveErrors = 0) := by
  refine ⟨rxStep_badMagic, fun n s rest hc hi => ?_, fun s kind payload rest hc hi hcap hne => ?_⟩
  · rw [rxRun_badMagic n s rest hc hi]
    exact ⟨hc ▸ rfl, rfl, rfl⟩
  · rw [rxStep_dispatch s kind payload rest hc hi hcap hne]
    split_ifs <;> rfl

/-- Witness for C6 (amended) at concrete inputs. -/
theorem framing_errors_never_close_witness :
    ((mkRx (badMagicHeader ++ [])).closed = false ∧ badMagicHeader.length = 9
     ∧ headerMagic badMagicHeader ≠ magicBytes)
    ∧ rxStep (mkRx (badMagicHeader ++ []))
        = { mkRx (badMagicHeader ++ []) with input := [], syncErrors := 0 + 1 }
    ∧ (rxRun 10 (mkRx ((List.replicate 10 badMagicHeader).flatten ++ []))).closed = false
    ∧ (rxStep (mkRx (encodeMsg 86 [5] ++ []))).consecutiveErrors = 0 := by
  refine ⟨⟨rfl, rfl, by decide⟩,
    framing_errors_never_close.1 _ badMagicHeader [] rfl rfl rfl (by decide),
    (framing_errors_never_close.2.1 10 _ [] rfl rfl).1,
    framing_errors_never_close.2.2 _ 86 [5] [] rfl rfl (by decide) (by decide)⟩

/-! ## Claim C7: header validation -/

/-- Counterexample to claim C7: a header with a valid b"SYNC" magic but
unrecognized kind byte 88 (X) and a 1-byte payload.  The receiver does NOT
classify it as a framing error: the sync-error counter stays at zero, the
consecutive count is reset, the length field is acted on (the payload byte
is consumed) and the message silently vanishes. -/
theorem kind_validation_counterexample :
    (rxStep (mkRx (magicBytes ++ [88] ++ toLE32 1 ++ [7]))).syncErrors = 0
    ∧ (rxStep (mkRx (magicBytes ++ [88] ++ toLE32 1 ++ [7]))).consecutiveErrors = 0
    ∧ (rxStep (mkRx (magicBytes ++ [88] ++ toLE32 1 ++ [7]))).dispatched = []
    ∧ (rxStep (mkRx (magicBytes ++ [88] ++ toLE32 1 ++ [7]))).closed = false
    ∧ (rxStep (mkRx (magicBytes ++ [88] ++ toLE32 1 ++ [7]))).input = [] := by
  refine ⟨by decide, by decide, by decide, by decide, by decide⟩

/-- Claim C7 amended: only the magic is validated.  A 9-byte header whose
first 4 bytes differ from b"SYNC" is counted as a framing error and
dispatched nowhere; a header with a valid magic but a kind byte outside
{86, 65, 73} is NOT an error: it resets the consecutive count, its length
field is acted on and the payload consumed, and the message is silently
discarded with no counter change and no dispatch. -/
theorem header_validation_magic_only :
    (∀ (s : RxState) (h9 rest : List Nat), s.closed = false →
      s.input = h9 ++ rest → h9.length = 9 → headerMagic h9 ≠ magicBytes →
      rxStep s = { s with input := rest, syncErrors := s.syncErrors + 1 })
    ∧ (∀ (s : RxState) (kind : Nat) (payload rest : List Nat),
        s.closed = false → s.input = encodeMsg kind payload ++ rest →
        payload.length ≤ maxPacketSize → payload ≠ [] →
        kind ≠ 86 → kind ≠ 65 → kind ≠ 73 →
        rxStep s = { s with input := rest, consecutiveErrors := 0 }) := by
  refine ⟨rxStep_badMagic, fun s kind payload rest hc hi hcap hne h86 h65 h73 => ?_⟩
  rw [rxStep_dispatch s kind payload rest hc hi hcap hne]
  simp [h86, h65, h73]

/-- Witness for C7 (amended): a b"SYNX" header and a b"SYNC" header with
kind byte 88. -/
theorem header_validation_magic_only_witness :
    (badMagicHeader.length = 9 ∧ headerMagic badMagicHeader ≠ magicBytes
     ∧ rxStep (mkRx (badMagicHeader ++ [4]))
         = { mkRx (badMagicHeader ++ [4]) with input := [4], syncErrors := 0 + 1 })
    ∧ rxStep (mkRx (encodeMsg 88 [7] ++ [4]))
        = { mkRx (encodeMsg 88 [7] ++ [4]) with input := [4], consecutiveErrors := 0 } := by
  refine ⟨⟨rfl, by decide, ?_⟩, ?_⟩
  · exact header_validation_magic_only.1 _ badMagicHeader [4] rfl rfl rfl (by decide)
  · exact header_validation_magic_only.2 _ 88 [7] [4] rfl rfl (by decide) (by decide)
      (by decide) (by decide) (by decide)

/-! ## Claim C10: AudioInfo payloads that are not 12 bytes -/

/-- Counterexample to claim C10: an AudioInfo message with a ZERO-length
payload (not 12 bytes) does not leave the session open: `receive_exact(0)`
returns the empty byte string, which the receive loop `if not data` check
misreads as connection loss, so the session closes. -/
theorem audio_info_length_counterexample :
    (rxStep (mkRx (encodeMsg 73 [] ++ [9, 9]))).closed = true := by
  decide

/-- Claim C10 amended: an AudioInfo message whose payload has any length
other than 12 and at least 1 (and within the cap) is silently swallowed by
the bare `except` around `struct.unpack` of the payload: no counter
changes, the audio-format slot is untouched, nothing is dispatched, the
payload was already consumed so the stream stays aligned, and the session
continues.  A zero-length payload instead closes the session, because the
empty `receive_exact(0)` result is treated as connection loss. -/
theorem audio_info_bad_length_ignored (s : RxState) (payload rest : List Nat)
    (hc : s.closed = false) (hi : s.input = encodeMsg 73 payload ++ rest)
    (h12 : payload.length ≠ 12) (hne : payload ≠ [])
    (hcap : payload.length ≤ maxPacketSize) :
    rxStep s = { s with input := rest, consecutiveErrors := 0 } := by
  rw [rxStep_dispatch s 73 payload rest hc hi hcap hne]
  simp [h12]

/-- Witness for C10 (amended) at a concrete 3-byte AudioInfo payload. -/
theorem audio_info_bad_length_ignored_witness :
    (([1, 2, 3] : List Nat).length ≠ 12 ∧ ([1, 2, 3] : List Nat) ≠ [])
    ∧ rxStep (mkRx (encodeMsg 73 [1, 2, 3] ++ [4]))
        = { mkRx (encodeMsg 73 [1, 2, 3] ++ [4]) with
            input := [4], consecutiveErrors := 0 } :=
  ⟨⟨by decide, by decide⟩,
   audio_info_bad_length_ignored (mkRx (encodeMsg 73 [1, 2, 3] ++ [4]))
     [1, 2, 3] [4] rfl rfl (by decide) (by decide) (by decide)⟩

/-! ## Claim C9: audio-format fallback negotiation -/

/-- Counterexample to claim C9: with an active configuration (44100, 2)
already successfully opened, an announcement of (22050, 1) on which the
device rejects every candidate does NOT disable audio playback for the
remainder of the session: `stream_configured` is never cleared, so the
`return` that would end the playback thread is skipped, the thread stays
alive with a closed stream, and a later announcement of (48000, 2) that
the device accepts re-opens playback. -/
theorem audio_fallback_counterexample :
    (handleAudioInfo ⟨44100, 2, true, true, true⟩ 22050 1
        (fun _ => false)).threadAlive = true
    ∧ (handleAudioInfo (handleAudioInfo ⟨44100, 2, true, true, true⟩ 22050 1
        (fun _ => false)) 48000 2 (fun _ => true)).streamOpen = true := by
  refine ⟨by decide, by decide⟩

/-- Claim C9 amended: on an announcement differing from the active
configuration the negotiator attempts exactly the candidates
(r, c), (44100, c), (48000, c), (r, 2), (44100, 2), (48000, 2) in order and
adopts the first one the device accepts (the loop result equals the first
accepted entry of the candidate list); when no candidate is accepted the
stream is left closed, and the playback thread exits - disabling audio for
the remainder of the session - only when no configuration had ever been
successfully opened; after a previously successful configuration the
thread stays alive (dead stream) and can be revived by a later
announcement. -/
theorem audio_fallback_order (r c : Nat) (accepts : Nat × Nat → Bool)
    (s : AudioPlayback) (halive : s.threadAlive = true)
    (hdiff : r ≠ s.rate ∨ c ≠ s.channels) :
    tryConfigs (configsToTry r c) accepts = (configsToTry r c).find? accepts
    ∧ (∀ p : Nat × Nat, (configsToTry r c).find? accepts = some p →
        handleAudioInfo s r c accepts = ⟨p.1, p.2, true, true, true⟩)
    ∧ ((configsToTry r c).find? accepts = none →
        (handleAudioInfo s r c accepts).streamOpen = false
        ∧ (handleAudioInfo s r c accepts).threadAlive = s.streamConfigured) := by
  have htrig : r ≠ s.rate ∨ c ≠ s.channels ∨ s.streamConfigured = false :=
    hdiff.elim Or.inl (fun h => Or.inr (Or.inl h))
  refine ⟨tryConfigs_eq_find _ accepts, fun p hp => ?_, fun hnone => ?_⟩
  · simp [handleAudioInfo, htrig, tryConfigs_eq_find, hp, halive]
  · have hfind : tryConfigs (configsToTry r c) accepts = none := by
      rw [tryConfigs_eq_find]; exact hnone
    simp only [handleAudioInfo, if_pos htrig, hfind]
    cases hcfg : s.streamConfigured <;> simp [halive]

/-- Witness for C9 (amended): an announcement of (22050, 1) against an
active (44100, 2) where the device accepts only (48000, 1), the third
candidate in the priority order. -/
theorem audio_fallback_order_witness :
    ((⟨44100, 2, true, true, true⟩ : AudioPlayback).threadAlive = true
     ∧ ((22050 : Nat) ≠ 44100 ∨ (1 : Nat) ≠ 2))
    ∧ handleAudioInfo ⟨44100, 2, true, true, true⟩ 22050 1
        (fun p => p.1 = 48000 && p.2 = 1) = ⟨48000, 1, true, true, true⟩ := by
  refine ⟨⟨rfl, Or.inl (by decide)⟩, ?_⟩
  have h := (audio_fallback_order 22050 1 (fun p => p.1 = 48000 && p.2 = 1)
    ⟨44100, 2, true, true, true⟩ rfl (Or.inl (by decide))).2.1
    (48000, 1) (by decide)
  exact h
